import Mathlib

/-!
Verification of the cc-proxy request/response pipeline (crates/cc-proxy).

This file embeds, as executable Lean definitions, the parts of the source
that the frozen claims are about:

* `mode.rs` — `ProxyMode`, `ProxyMode.from_u8`, and the `RuntimeMode`
  atomic cell (modelled as a plain byte value: reads and writes of the
  cell are single atomic operations on one `u8`).
* `server.rs` — `rewrite_request_body`, the `/v1/messages` mode dispatch
  of `handle_messages` (including the anthropic-only gate), and
  `handle_set_mode`.
* `proxy/primary.rs` — the `TeeBody` pass-through stream,
  `build_response`, the upstream request header construction of
  `forward_to_anthropic`, and `extract_streaming_stats`.
* `proxy/compare.rs` — the body of the task spawned by
  `CompareDispatcher::dispatch`.
* `convert/validation.rs` and the typed request model of
  `convert/types.rs` — `validate_request` and the serde typed parse it
  gates on.
* `openinference.rs` — the `input_tokens` accumulation of
  `set_streaming_response_attributes`.

JSON values (`serde_json::Value`) are modelled by the inductive `Json`
below.  Numbers are modelled as integers (`Int`): every number the
claims exercise is integral, and `as_u64`/`as_i64` are modelled with
their range checks.  Objects are modelled as insertion-ordered
association lists.

Modelled from the spec: the repository's `Cargo.toml` is not part of the
sources provided, so the `serde_json` feature flags are not visible; the
spec's invariant "a rewritten request body preserves insertion order...
of all fields" fixes the `preserve_order` feature (insertion-ordered
`Map` backed by an index map, whose `insert` replaces the value of an
existing key in place and appends a missing key at the end).  The object
model below follows that.
-/

set_option maxHeartbeats 1000000

namespace CCProxy

/-- `serde_json::Value`, with numbers restricted to integers (all numbers
exercised by the claims are integral; `u32`/`u64`/`i64` extraction keeps
its range checks). -/
inductive Json where
  | null : Json
  | bool (b : Bool) : Json
  | num (n : Int) : Json
  | str (s : String) : Json
  | arr (xs : List Json) : Json
  | obj (fields : List (String × Json)) : Json
deriving Repr

namespace Json

/-- `Value::get(key)` for a string key: field lookup on objects, `None`
on every other variant.  serde maps have unique keys, so first-match
lookup agrees with map lookup. -/
def getField : Json → String → Option Json
  | .obj fs, k => fs.lookup k
  | _, _ => none

/-- `Value::get(index)` for an array index. -/
def getIdx : Json → Nat → Option Json
  | .arr xs, i => xs.get? i
  | _, _ => none

/-- `Value::as_str`. -/
def asStr : Json → Option String
  | .str s => some s
  | _ => none

/-- `Value::as_bool`. -/
def asBool : Json → Option Bool
  | .bool b => some b
  | _ => none

/-- `Value::as_u64` (number in `u64` range). -/
def asU64 : Json → Option Nat
  | .num n => if 0 ≤ n ∧ n < 2 ^ 64 then some n.toNat else none
  | _ => none

/-- `Value::as_i64` (number in `i64` range). -/
def asI64 : Json → Option Int
  | .num n => if -(2 ^ 63) ≤ n ∧ n < 2 ^ 63 then some n else none
  | _ => none

/-- `Value::is_null`. -/
def isNull : Json → Bool
  | .null => true
  | _ => false

mutual

/-- Structural size of a JSON value (computable; used only to seed the
fuel of the nested block parser with a bound exceeding every reachable
recursion depth). -/
def size : Json → Nat
  | .null => 1
  | .bool _ => 1
  | .num _ => 1
  | .str _ => 1
  | .arr xs => 1 + sizeList xs
  | .obj fs => 1 + sizeFields fs

def sizeList : List Json → Nat
  | [] => 0
  | x :: xs => 1 + size x + sizeList xs

def sizeFields : List (String × Json) → Nat
  | [] => 0
  | (_, v) :: fs => 1 + size v + sizeFields fs

end

/-- Escape one character of a JSON string the way `serde_json`'s compact
serializer does (`"` and `\` escaped; control characters via the short
escapes or `\u00XX`). -/
def escChar (c : Char) : String :=
  if c = '"' then "\\\""
  else if c = '\\' then "\\\\"
  else if c = '\n' then "\\n"
  else if c = '\r' then "\\r"
  else if c = '\t' then "\\t"
  else if c.toNat < 32 then
    "\\u00" ++ String.mk [Nat.digitChar (c.toNat / 16), Nat.digitChar (c.toNat % 16)]
  else String.mk [c]

/-- Compact serialization of a JSON string literal. -/
def serStr (s : String) : String :=
  "\"" ++ String.join (s.toList.map escChar) ++ "\""

mutual

/-- `serde_json::to_vec`: compact serialization (no whitespace), fields
in the (insertion) order of the object. -/
def ser : Json → String
  | .null => "null"
  | .bool true => "true"
  | .bool false => "false"
  | .num n => toString n
  | .str s => serStr s
  | .arr xs => "[" ++ serList xs ++ "]"
  | .obj fs => "\x7b" ++ serFields fs ++ "\x7d"

def serList : List Json → String
  | [] => ""
  | [x] => ser x
  | x :: y :: rest => ser x ++ "," ++ serList (y :: rest)

def serFields : List (String × Json) → String
  | [] => ""
  | [(k, v)] => serStr k ++ ":" ++ ser v
  | (k, v) :: p :: rest => serStr k ++ ":" ++ ser v ++ "," ++ serFields (p :: rest)

end

end Json

/-! ## Mode register (`mode.rs`) -/

/-- `ProxyMode` (`mode.rs`).  The serde kebab-case names are
`anthropic-only`, `target`, `compare`; the `repr(u8)` discriminants are
0, 1, 2. -/
inductive ProxyMode where
  | AnthropicOnly
  | TargetOnly
  | Compare
deriving Repr, DecidableEq

namespace ProxyMode

/-- `mode as u8` — the `repr(u8)` discriminant. -/
def toU8 : ProxyMode → Nat
  | .AnthropicOnly => 0
  | .TargetOnly => 1
  | .Compare => 2

/-- `ProxyMode::from_u8` (`mode.rs`).  The Rust `match` has arms for
`0`, `1`, `2` and a default arm mapping everything else to `Compare`;
the byte cell is modelled as a `Nat`. -/
def from_u8 (v : Nat) : ProxyMode :=
  if v = 0 then .AnthropicOnly
  else if v = 1 then .TargetOnly
  else if v = 2 then .Compare
  else .Compare

/-- serde deserialization of a mode string (the rename attributes of
`ProxyMode`); used by `handle_set_mode` via `serde_json::from_value`. -/
def ofString (s : String) : Option ProxyMode :=
  if s = "anthropic-only" then some .AnthropicOnly
  else if s = "target" then some .TargetOnly
  else if s = "compare" then some .Compare
  else none

end ProxyMode

/-- `RuntimeMode` (`mode.rs`): an `Arc<AtomicU8>` cell.  A single
atomic read or write is modelled as a pure function of the byte held in
the cell. -/
def RuntimeMode.set (m : ProxyMode) : Nat := m.toU8

/-- `RuntimeMode::get`: relaxed load of the cell decoded through
`from_u8`. -/
def RuntimeMode.get (cell : Nat) : ProxyMode := ProxyMode.from_u8 cell

/-! ## Body rewriter (`server.rs::rewrite_request_body`) -/

/-- `serde_json::Map::insert` under `preserve_order`: replace the value
of an existing key in place, append a missing key at the end. -/
def insertField : List (String × Json) → String → Json → List (String × Json)
  | [], k, v => [(k, v)]
  | (k', v') :: rest, k, v =>
      if k' = k then (k, v) :: rest else (k', v') :: insertField rest k v

/-- The `!obj.contains_key("max_tokens") ||
obj.get("max_tokens").is_some_and(|v| v.is_null())` condition. -/
def maxTokensMissingOrNull (mt : Option Json) : Bool :=
  match mt with
  | none => true
  | some v => v.isNull

/-- The `max_tokens` half of the patch: insert the configured default
65536 when the field is absent or null. -/
def withMaxTokensDefault (fs : List (String × Json)) : List (String × Json) :=
  if maxTokensMissingOrNull (fs.lookup "max_tokens") then
    insertField fs "max_tokens" (.num 65536)
  else fs

/-- The object-level patch performed by `rewrite_request_body` on a body
that parsed to a JSON object with fields `fs`:
replace `model` when an override is configured, then default
`max_tokens`. -/
def rewriteFields (fs : List (String × Json)) (new_model : Option String) :
    List (String × Json) :=
  withMaxTokensDefault (match new_model with
    | some m => insertField fs "model" (.str m)
    | none => fs)

/-- `rewrite_request_body` (`server.rs`), at the level of the parsed
`serde_json::Value`: the Rust function parses the bytes, patches the
value when it is an object (`as_object_mut`), and re-serializes; a body
whose top level is not an object passes through the patch unchanged. -/
def rewrite_request_body (v : Json) (new_model : Option String) : Json :=
  match v with
  | .obj fs => .obj (rewriteFields fs new_model)
  | other => other

/-! ## JSON text layer (`serde_json::from_slice` / `serde_json::to_vec`)

`rewrite_request_body` is a bytes-to-bytes function: it parses the body,
patches the value, and re-serializes.  The parser below models
`serde_json::from_slice` on the `Json` value model: JSON whitespace,
`null`/`true`/`false`, strings with the standard escapes (`\uXXXX`
decoded to the character it denotes, raw control bytes rejected),
integer numbers, arrays, and objects whose members are inserted in
order with `insertField` (the `preserve_order` map insert), rejecting
trailing input.  Model restrictions, following the integer-only number
model: a fraction or exponent makes the parse fail (serde would read an
`f64`), and surrogate-pair `\u` escapes are rejected.  Recursion is
bounded by a fuel seeded strictly above any reachable depth, so the
exhausted-fuel case is never taken. -/

/-- JSON whitespace. -/
def isJsonWs (c : Char) : Bool :=
  c = ' ' || c = '\t' || c = '\n' || c = '\r'

/-- Skip leading JSON whitespace. -/
def skipWs : List Char → List Char
  | [] => []
  | c :: rest => if isJsonWs c then skipWs rest else c :: rest

/-- Value of one hex digit. -/
def hexVal (c : Char) : Option Nat :=
  if '0' ≤ c ∧ c ≤ '9' then some (c.toNat - 48)
  else if 'a' ≤ c ∧ c ≤ 'f' then some (c.toNat - 87)
  else if 'A' ≤ c ∧ c ≤ 'F' then some (c.toNat - 55)
  else none

/-- Decode a one-character escape (`\"`, `\\`, `\/`, `\b`, `\f`, `\n`,
`\r`, `\t`). -/
def escDecode (e : Char) : Option Char :=
  if e = '"' then some '"'
  else if e = '\\' then some '\\'
  else if e = '/' then some '/'
  else if e = 'b' then some '\x08'
  else if e = 'f' then some '\x0c'
  else if e = 'n' then some '\n'
  else if e = 'r' then some '\r'
  else if e = 't' then some '\t'
  else none

/-- Parse the characters of a string literal after its opening quote,
decoding escapes, up to the closing quote; returns the decoded
characters and the remaining input. -/
def parseStringChars : Nat → List Char → Option (List Char × List Char)
  | 0, _ => none
  | _ + 1, [] => none
  | fuel + 1, c :: rest =>
    if c = '"' then some ([], rest)
    else if c = '\\' then
      match rest with
      | [] => none
      | e :: rest2 =>
        if e = 'u' then
          match rest2 with
          | h1 :: h2 :: h3 :: h4 :: rest3 =>
            match hexVal h1, hexVal h2, hexVal h3, hexVal h4 with
            | some a, some b, some c2, some d =>
                let n := ((a * 16 + b) * 16 + c2) * 16 + d
                if 0xD800 ≤ n ∧ n < 0xE000 then none
                else (parseStringChars fuel rest3).map
                  (fun p => (Char.ofNat n :: p.1, p.2))
            | _, _, _, _ => none
          | _ => none
        else
          match escDecode e with
          | some ch => (parseStringChars fuel rest2).map (fun p => (ch :: p.1, p.2))
          | none => none
    else if c.toNat < 32 then none
    else (parseStringChars fuel rest).map (fun p => (c :: p.1, p.2))

/-- Longest leading run of decimal digits. -/
def takeDigits : List Char → List Char × List Char
  | [] => ([], [])
  | c :: rest =>
      if '0' ≤ c && c ≤ '9' then
        let (ds, r) := takeDigits rest
        (c :: ds, r)
      else ([], c :: rest)

/-- Numeric value of a digit run. -/
def digitsToNat (ds : List Char) : Nat :=
  ds.foldl (fun acc c => acc * 10 + (c.toNat - 48)) 0

/-- Parse an unsigned JSON integer: at least one digit, no redundant
leading zero, and — the integer-model restriction — no fraction or
exponent. -/
def parseNumberNat (cs : List Char) : Option (Nat × List Char) :=
  match h : takeDigits cs with
  | ([], _) => none
  | (d :: ds, rest) =>
      if d = '0' ∧ ds ≠ [] then none
      else
        match rest with
        | '.' :: _ => none
        | 'e' :: _ => none
        | 'E' :: _ => none
        | _ => some (digitsToNat (d :: ds), rest)

/-- Parse a JSON integer with optional leading minus. -/
def parseNumber (cs : List Char) : Option (Int × List Char) :=
  match cs with
  | '-' :: rest => (parseNumberNat rest).map (fun p => (-(p.1 : Int), p.2))
  | _ => (parseNumberNat cs).map (fun p => ((p.1 : Int), p.2))

mutual

/-- Parse one JSON value (after skipping leading whitespace). -/
def parseValue : Nat → List Char → Option (Json × List Char)
  | 0, _ => none
  | fuel + 1, cs =>
    match skipWs cs with
    | [] => none
    | c :: rest =>
      if c = 'n' then
        match rest with
        | 'u' :: 'l' :: 'l' :: r => some (.null, r)
        | _ => none
      else if c = 't' then
        match rest with
        | 'r' :: 'u' :: 'e' :: r => some (.bool true, r)
        | _ => none
      else if c = 'f' then
        match rest with
        | 'a' :: 'l' :: 's' :: 'e' :: r => some (.bool false, r)
        | _ => none
      else if c = '"' then
        (parseStringChars (rest.length + 1) rest).map
          (fun p => (.str (String.mk p.1), p.2))
      else if c = '[' then
        (parseArrayItems fuel rest).map (fun p => (.arr p.1, p.2))
      else if c = '\x7b' then
        (parseObjectItems fuel rest).map
          (fun p => (.obj (p.1.foldl (fun acc kv => insertField acc kv.1 kv.2) []), p.2))
      else
        (parseNumber (c :: rest)).map (fun p => (.num p.1, p.2))

/-- Parse array elements after `[`: empty array or first element. -/
def parseArrayItems : Nat → List Char → Option (List Json × List Char)
  | 0, _ => none
  | fuel + 1, cs =>
    match skipWs cs with
    | ']' :: rest => some ([], rest)
    | cs2 =>
      match parseValue fuel cs2 with
      | none => none
      | some (v, r) =>
          (parseArrayTail fuel r).map (fun p => (v :: p.1, p.2))

/-- After an array element: `,` and another element, or `]`. -/
def parseArrayTail : Nat → List Char → Option (List Json × List Char)
  | 0, _ => none
  | fuel + 1, cs =>
    match skipWs cs with
    | ']' :: rest => some ([], rest)
    | ',' :: rest =>
      match parseValue fuel rest with
      | none => none
      | some (v, r) =>
          (parseArrayTail fuel r).map (fun p => (v :: p.1, p.2))
    | _ => none

/-- Parse object members after the opening brace: empty object or first
member, in source order. -/
def parseObjectItems : Nat → List Char → Option (List (String × Json) × List Char)
  | 0, _ => none
  | fuel + 1, cs =>
    match skipWs cs with
    | '\x7d' :: rest => some ([], rest)
    | cs2 =>
      match parseMember fuel cs2 with
      | none => none
      | some (kv, r) =>
          (parseObjectTail fuel r).map (fun p => (kv :: p.1, p.2))

/-- After an object member: `,` and another member, or the closing
brace. -/
def parseObjectTail : Nat → List Char → Option (List (String × Json) × List Char)
  | 0, _ => none
  | fuel + 1, cs =>
    match skipWs cs with
    | '\x7d' :: rest => some ([], rest)
    | ',' :: rest =>
      match parseMember fuel rest with
      | none => none
      | some (kv, r) =>
          (parseObjectTail fuel r).map (fun p => (kv :: p.1, p.2))
    | _ => none

/-- Parse one `"key": value` member. -/
def parseMember : Nat → List Char → Option ((String × Json) × List Char)
  | 0, _ => none
  | fuel + 1, cs =>
    match skipWs cs with
    | '"' :: rest =>
      match parseStringChars (rest.length + 1) rest with
      | none => none
      | some (kcs, r) =>
        match skipWs r with
        | ':' :: r2 =>
          match parseValue fuel r2 with
          | none => none
          | some (v, r3) => some ((String.mk kcs, v), r3)
        | _ => none
    | _ => none

end

/-- `serde_json::from_slice` on a whole document: one value, then only
trailing whitespace.  The fuel strictly exceeds the number of parser
calls any input of this length can make. -/
def parseJsonText (s : String) : Option Json :=
  match parseValue (2 * s.length + 2) s.toList with
  | some (v, rest) => if skipWs rest = [] then some v else none
  | none => none

/-- `rewrite_request_body` (`server.rs`) as the bytes-to-bytes function
it is: `serde_json::from_slice`, the value patch, `serde_json::to_vec`.
`none` is the `Err` path whose bytes the handler forwards unchanged. -/
def rewrite_request_body_bytes (body : String) (new_model : Option String) :
    Option String :=
  (parseJsonText body).map (fun v => Json.ser (rewrite_request_body v new_model))

/-- `needle` matches at the head of `hay`. -/
def charsHeadMatch : List Char → List Char → Bool
  | [], _ => true
  | _ :: _, [] => false
  | a :: as, b :: bs => a = b && charsHeadMatch as bs

/-- `needle` occurs contiguously somewhere in `hay`. -/
def charsContain (needle : List Char) : List Char → Bool
  | [] => charsHeadMatch needle []
  | b :: bs => charsHeadMatch needle (b :: bs) || charsContain needle bs

/-- Substring test on strings (used to speak about the literal encoding
of a field inside a body). -/
def strContains (hay needle : String) : Bool :=
  charsContain needle.toList hay.toList

/-! ## Stats (`stats.rs`) -/

/-- `ProxyStats` (`stats.rs`): four monotonic counters.  The `u64`
relaxed `fetch_add`s are modelled on `Nat`; the claims concern which
additions happen, not 64-bit wraparound. -/
structure ProxyStats where
  total_requests : Nat
  input_tokens : Nat
  output_tokens : Nat
  tool_calls : Nat
deriving Repr, DecidableEq

namespace ProxyStats

def inc_requests (s : ProxyStats) : ProxyStats :=
  { s with total_requests := s.total_requests + 1 }

def add_input_tokens (s : ProxyStats) (n : Nat) : ProxyStats :=
  { s with input_tokens := s.input_tokens + n }

def add_output_tokens (s : ProxyStats) (n : Nat) : ProxyStats :=
  { s with output_tokens := s.output_tokens + n }

def add_tool_calls (s : ProxyStats) (n : Nat) : ProxyStats :=
  { s with tool_calls := s.tool_calls + n }

end ProxyStats

/-! ## SSE events and the streaming stats extractor
(`proxy/primary.rs::extract_streaming_stats`)

The Rust function splits the buffered body on `"\n\n"`, scans each chunk
for `event: ` / `data: ` line prefixes, and JSON-parses the data line,
skipping chunks without a data line or with unparsable data.  That
deterministic framing layer is modelled at its output: a list of events,
each carrying the optional `event:` type and the parsed `data:` JSON
value.  Chunks that are skipped (no data line / parse failure) never
reach the `match` on the event type and are omitted from the list. -/

/-- One SSE event after framing: the `event:` line's type (if present)
and the parsed `data:` payload. -/
structure SSEEvent where
  etype : Option String
  data : Json

/-- One iteration of the `for event_chunk` loop of
`extract_streaming_stats`: the `match event_type` block, threading the
`input_tokens_seen` flag.  The Rust nested `if let Some(..)` ladders on
`data.get(..)` / `as_u64()` are written as single `Option.bind`
chains. -/
def streamStatsStep (s : ProxyStats) (seen : Bool) (e : SSEEvent) :
    ProxyStats × Bool :=
  match e.etype with
  | some t =>
    if t = "message_start" then
      match ((e.data.getField "message").bind (·.getField "usage")).bind
          (fun u => (u.getField "input_tokens").bind Json.asU64) with
      | some input => (s.add_input_tokens input, true)
      | none => (s, seen)
    else if t = "message_delta" then
      match e.data.getField "usage" with
      | some usage =>
        let s1 := match (usage.getField "output_tokens").bind Json.asU64 with
          | some output => s.add_output_tokens output
          | none => s
        if seen then (s1, seen)
        else
          match (usage.getField "input_tokens").bind Json.asU64 with
          | some input => (s1.add_input_tokens input, true)
          | none => (s1, seen)
      | none => (s, seen)
    else if t = "content_block_start" then
      match e.data.getField "content_block" with
      | some cb =>
        if (cb.getField "type" |>.bind Json.asStr) = some "tool_use" then
          (s.add_tool_calls 1, seen)
        else (s, seen)
      | none => (s, seen)
    else (s, seen)
  | none => (s, seen)

/-- The event loop of `extract_streaming_stats`, with the
`input_tokens_seen` flag explicit. -/
def streamStatsLoop (s : ProxyStats) (seen : Bool) : List SSEEvent → ProxyStats
  | [] => s
  | e :: rest =>
      let (s', seen') := streamStatsStep s seen e
      streamStatsLoop s' seen' rest

/-- `extract_streaming_stats` (`proxy/primary.rs`): process the SSE
events of the buffered body in order, starting with
`input_tokens_seen = false`. -/
def extract_streaming_stats (s : ProxyStats) (events : List SSEEvent) : ProxyStats :=
  streamStatsLoop s false events

/-! ## Streaming attribute extraction
(`openinference.rs::set_streaming_response_attributes`)

Only the `input_tokens` accumulation is modelled: the function walks the
same event list with a local `input_tokens : Option<i64>`, and after the
loop emits `llm.token_count.prompt` once iff the option is `Some`.  The
role/content-block/output-token accumulation of the function does not
touch this state. -/

/-- One event's effect on the local `input_tokens : Option<i64>` of
`set_streaming_response_attributes`: `message_start` stores the value
unconditionally, `message_delta` only when nothing is stored yet
(`input_tokens.is_none()`). -/
def promptStep (acc : Option Int) (e : SSEEvent) : Option Int :=
  match e.etype with
  | some t =>
    if t = "message_start" then
      match ((e.data.getField "message").bind (·.getField "usage")).bind
          (fun u => (u.getField "input_tokens").bind Json.asI64) with
      | some it => some it
      | none => acc
    else if t = "message_delta" then
      match e.data.getField "usage" with
      | some usage =>
        if acc.isNone then
          match (usage.getField "input_tokens").bind Json.asI64 with
          | some it => some it
          | none => acc
        else acc
      | none => acc
    else acc
  | none => acc

/-- The event loop of `set_streaming_response_attributes`, restricted to
the `input_tokens` accumulation. -/
def promptLoop (acc : Option Int) : List SSEEvent → Option Int
  | [] => acc
  | e :: rest => promptLoop (promptStep acc e) rest

/-- The `input_tokens` accumulation of
`set_streaming_response_attributes` over the whole event list.  The
result is the value the function then emits — at most once, iff the
option is `some` — as the `llm.token_count.prompt` span attribute. -/
def streamingPromptTokens (events : List SSEEvent) : Option Int :=
  promptLoop none events

/-! ## TeeBody (`proxy/primary.rs`)

The tap stream.  A poll item of the inner upstream stream is
`Except String Chunk` (`Result<Bytes, reqwest::Error>` with the error
carried as text); chunks are byte lists.  `Poll::Pending` returns the
state unchanged and is dropped from the model; the `span`, `stats` and
`start` fields are telemetry whose effects (ttft / duration records and
the end-of-stream extraction over the buffer) do not touch the byte
path, so only the extraction input — the buffer — is kept. -/

/-- `TeeBody` (`proxy/primary.rs`): the remaining inner stream items, the
side buffer, and the fields that steer end-of-stream extraction. -/
structure TeeBody where
  inner : List (Except String (List Nat))
  buffer : List Nat
  is_streaming : Bool
  first_chunk_seen : Bool

namespace TeeBody

/-- `TeeBody::poll_next` on a ready inner stream: `Ok(chunk)` appends the
chunk to the buffer (and records ttft on the first one) and forwards the
chunk unchanged; `Err` forwards the error; an exhausted inner stream
yields `none` (end of stream, where extraction over the buffer runs). -/
def poll_next (t : TeeBody) : Option (Except String (List Nat)) × TeeBody :=
  match t.inner with
  | .ok chunk :: rest =>
      (some (.ok chunk),
       { t with inner := rest, buffer := t.buffer ++ chunk, first_chunk_seen := true })
  | .error e :: rest => (some (.error e), { t with inner := rest })
  | [] => (none, t)

/-- Drive `poll_next` to end of stream, collecting the items delivered to
the client and the final state (whose buffer feeds extraction).
Termination: a ready poll item consumes one inner stream element. -/
def run (t : TeeBody) : List (Except String (List Nat)) × TeeBody :=
  match h : poll_next t with
  | (none, t') => ([], t')
  | (some item, t') =>
      let (rest, tf) := run t'
      (item :: rest, tf)
termination_by t.inner.length
decreasing_by
  obtain ⟨inner, buf, st, fc⟩ := t
  cases inner with
  | nil => simp [poll_next] at h
  | cons i rest =>
    cases i <;> simp [poll_next] at h <;> obtain ⟨h1, h2⟩ := h <;> rw [← h2] <;> simp

/-- The bytes of the successful chunks of a poll-item list, in order —
what the buffer accumulates. -/
def okBytes (items : List (Except String (List Nat))) : List Nat :=
  (items.filterMap fun i => match i with | .ok c => some c | .error _ => none).flatten

end TeeBody

/-! ## Response construction (`proxy/primary.rs::build_response`,
`server.rs::handle_messages`, `server.rs::handle_set_mode`) -/

/-- `CORRELATION_HEADER` (`proxy/correlation.rs`). -/
def CORRELATION_HEADER : String := "x-shadow-request-id"

/-- `HOP_BY_HOP_HEADERS` (`proxy/primary.rs`). -/
def HOP_BY_HOP_HEADERS : List String :=
  ["host", "connection", "transfer-encoding", "keep-alive", "upgrade",
   "proxy-authenticate", "proxy-authorization", "te", "trailers"]

/-- `HeaderValue::from_str` validity: visible ASCII, space or tab. -/
def validHeaderValue (s : String) : Bool :=
  s.toList.all fun c => c = '\t' ∨ (32 ≤ c.toNat ∧ c.toNat < 127)

/-- The error of a failed `reqwest` send: `e.is_timeout()` distinguishes
the timeout case from other connect/transport errors. -/
inductive UpstreamError where
  | timeout
  | connect (msg : String)
deriving Repr, DecidableEq

/-- A successful `reqwest::Response`: status, headers (header names are
kept lowercased, as `http::HeaderName` normalizes them), and the byte
stream (`bytes_stream()`). -/
structure UpstreamResponse where
  status : Nat
  headers : List (String × String)
  bodyStream : List (Except String (List Nat))

/-- Body of an axum `Response` in the paths modelled here. -/
inductive ResponseBody where
  | text (s : String)
  | jsonError (msg : String)
  | stream (t : TeeBody)

/-- An axum `Response`: status, headers in insertion order, body. -/
structure HttpResponse where
  status : Nat
  headers : List (String × String)
  body : ResponseBody

/-- Content-type header added by axum's `(StatusCode, &str)` responder. -/
def plainTextCT : String × String := ("content-type", "text/plain; charset=utf-8")

/-- Content-type header added by axum's `Json` responder. -/
def jsonCT : String × String := ("content-type", "application/json")

/-- `build_response` (`proxy/primary.rs`): 504 on timeout, 502 on any
other send error; on success the upstream status (mapped to 502 when
numerically invalid, i.e. outside `StatusCode::from_u16`'s 100..=999),
the upstream headers minus hop-by-hop, the correlation header appended,
and the upstream byte stream wrapped in a fresh `TeeBody`. -/
def build_response (upstream_result : Except UpstreamError UpstreamResponse)
    (correlation_id : String) (is_streaming : Bool) : HttpResponse :=
  match upstream_result with
  | .error .timeout => ⟨504, [plainTextCT], .text "upstream timeout"⟩
  | .error (.connect _) => ⟨502, [plainTextCT], .text "upstream connection error"⟩
  | .ok resp =>
      let status := if 100 ≤ resp.status ∧ resp.status ≤ 999 then resp.status else 502
      let headers :=
        resp.headers.filter (fun kv => ¬ HOP_BY_HOP_HEADERS.contains kv.1.toLower)
        ++ [(CORRELATION_HEADER,
             if validHeaderValue correlation_id then correlation_id else "unknown")]
      ⟨status, headers,
       .stream ⟨resp.bodyStream, [], is_streaming, false⟩⟩

/-- The headers of the upstream request built by `forward_to_anthropic`:
content-type and the correlation header are set first, then the incoming
headers are forwarded minus hop-by-hop, content-type, the correlation
header and content-length. -/
def upstream_request_headers (incoming : List (String × String))
    (correlation_id : String) : List (String × String) :=
  [("content-type", "application/json"), (CORRELATION_HEADER, correlation_id)]
  ++ incoming.filter (fun kv =>
      let n := kv.1.toLower
      ¬ HOP_BY_HOP_HEADERS.contains n ∧ n ≠ "content-type" ∧
        n ≠ CORRELATION_HEADER ∧ n ≠ "content-length")

/-- The JSON error body of the anthropic-only gate in `handle_messages`. -/
def gateErrorMsg : String :=
  "anthropic-only mode is not enabled; restart with --allow-anthropic-only"

/-- The 403 response of the anthropic-only gate
(`(StatusCode::FORBIDDEN, Json(...)).into_response()`). -/
def gate403Response : HttpResponse := ⟨403, [jsonCT], .jsonError gateErrorMsg⟩

/-- The mode branch of `handle_messages` (`server.rs`). -/
inductive ModeDecision where
  | forwardTarget
  | forwardPassthrough (compareDispatched : Bool)
  | gate403
deriving Repr, DecidableEq

/-- The `match current_mode` of `handle_messages`: `TargetOnly` forwards
to the target; `Compare` dispatches the compare copy and falls through
to the passthrough forward; `AnthropicOnly` falls through only when
allowed, otherwise returns the 403 gate response. -/
def messagesDispatch (mode : ProxyMode) (anthropic_only_allowed : Bool) : ModeDecision :=
  match mode with
  | .TargetOnly => .forwardTarget
  | .Compare => .forwardPassthrough true
  | .AnthropicOnly =>
      if anthropic_only_allowed then .forwardPassthrough false else .gate403

/-- The response of `handle_messages` as a function of the mode branch
and the primary upstream result (the target and passthrough forwards
build their responses identically via `build_response`). -/
def handle_messages_response (mode : ProxyMode) (anthropic_only_allowed : Bool)
    (correlation_id : String) (is_streaming : Bool)
    (upstream : Except UpstreamError UpstreamResponse) : HttpResponse :=
  match messagesDispatch mode anthropic_only_allowed with
  | .gate403 => gate403Response
  | _ => build_response upstream correlation_id is_streaming

/-- `handle_set_mode` (`server.rs`): result status and the mode register
contents after the call, given the request payload, the
`anthropic_only_allowed` flag and the current register contents. -/
def handle_set_mode (payload : Json) (anthropic_only_allowed : Bool)
    (current : ProxyMode) : Nat × ProxyMode :=
  match (payload.getField "mode").bind Json.asStr with
  | none => (400, current)
  | some s =>
      match ProxyMode.ofString s with
      | none => (400, current)
      | some m =>
          if m = .AnthropicOnly ∧ ¬ anthropic_only_allowed then (403, current)
          else (200, m)

/-! ## Compare dispatcher (`proxy/compare.rs::CompareDispatcher::dispatch`)

`dispatch` spawns one task and returns immediately.  The task's
interaction with the outside world is modelled as an environment: whether
`try_acquire_owned` succeeds, and the outcome of the timed send plus body
read.  The task only produces log records; it holds no reference to the
stats counters and returns `()` to the spawn. -/

/-- A compare response: HTTP status and the outcome of `resp.bytes()`.
A successfully read body is carried as its permissive JSON parse when it
has one (`serde_json::from_slice` succeeding). -/
structure CompareResp where
  status : Nat
  body : Except String (Option Json)

/-- Environment observed by the spawned compare task. -/
structure CompareEnv where
  /-- `semaphore.try_acquire_owned()` succeeds. -/
  sem_available : Bool
  /-- Outcome of `tokio::time::timeout(timeout, client.post(...).send())`:
  `none` is the elapsed timeout (outer `Err`), `some (.error e)` a
  transport error, `some (.ok resp)` a response. -/
  send_result : Option (Except String CompareResp)

/-- What the compare task logs; its only output. -/
inductive CompareLog where
  /-- warn: "Compare semaphore full, dropping request" -/
  | droppedSemaphoreFull
  /-- info: "Compare request complete" with usage token fields -/
  | completeWithUsage (status : Nat) (input_tokens output_tokens : Option Nat)
  /-- info: "Compare request complete" (no usage in the body) -/
  | complete (status : Nat)
  /-- warn: "Failed to read compare response body" -/
  | bodyReadFailed (status : Nat) (err : String)
  /-- warn: "Compare request failed" -/
  | transportFailed (err : String)
  /-- warn: "Compare request timed out" -/
  | timedOut
deriving Repr, DecidableEq

/-- The body of the task spawned by `CompareDispatcher::dispatch`:
semaphore load-shed, timed send, body read, permissive usage extraction
for the log.  Every branch terminates in a log record; nothing is
returned to the dispatching request. -/
def compare_task (env : CompareEnv) : CompareLog :=
  if ¬ env.sem_available then .droppedSemaphoreFull
  else
    match env.send_result with
    | none => .timedOut
    | some (.error e) => .transportFailed e
    | some (.ok resp) =>
        match resp.body with
        | .error e => .bodyReadFailed resp.status e
        | .ok parsed =>
            match parsed.bind (·.getField "usage") with
            | some usage =>
                .completeWithUsage resp.status
                  (usage.getField "input_tokens" |>.bind Json.asU64)
                  (usage.getField "output_tokens" |>.bind Json.asU64)
            | none => .complete resp.status

/-- The compare branch of `handle_messages` around the dispatch: the
request counter is incremented before the branch, the dispatch returns
immediately, and the client response is built from the primary forward
alone.  Returns the client response, the stats as left by the handler
path, and the compare task's log. -/
def process_compare_request (env : CompareEnv)
    (primary : Except UpstreamError UpstreamResponse)
    (correlation_id : String) (is_streaming : Bool) (s : ProxyStats) :
    HttpResponse × ProxyStats × CompareLog :=
  let s1 := s.inc_requests
  let log := compare_task env
  (build_response primary correlation_id is_streaming, s1, log)

/-! ## Typed request model (`convert/types.rs`) and the validation
sidecar (`convert/validation.rs`)

`cc-proxy`'s `convert/types.rs` is not among the provided sources; the
claim sources point at `shadow-proxy`'s identical
`convert/types.rs`, which is what `convert/validation.rs` deserializes
into (same type and field names, same serde attributes), so the model
below is translated from that file.

serde semantics mirrored here: struct fields of `Option` type accept a
missing field or `null` as `None`; unknown fields of a struct are
ignored; the internally-tagged `AnthropicContentBlock` requires a string
`type` tag, dispatches on it, and maps every unrecognized tag to the
`#[serde(other)]` unit variant `Other`; untagged enums try their
variants in declaration order.  Numeric fields keep their integer range
checks; the `f32` fields (`temperature`, `top_p`) accept the integral
numbers of the `Json` model. -/

/-- `AnthropicRole`. -/
inductive AnthropicRole where
  | user
  | assistant
deriving Repr, DecidableEq

/-- `format!("{:?}", role).to_lowercase()` as used for findings. -/
def AnthropicRole.roleStr : AnthropicRole → String
  | .user => "user"
  | .assistant => "assistant"

mutual

/-- `AnthropicContentBlock` (`convert/types.rs`): internally tagged on
`type`, with the `#[serde(other)]` catch-all `Other`. -/
inductive AnthropicContentBlock where
  | Text (text : String)
  | Image (source_type media_type data : String)
  | ToolUse (id name : String) (input : Json)
  | ToolResult (tool_use_id : String) (content : Option ToolResultContent)
      (is_error : Option Bool)
  | Other

/-- `ToolResultContent`: untagged, a plain string or nested blocks. -/
inductive ToolResultContent where
  | TRText (s : String)
  | TRBlocks (blocks : List AnthropicContentBlock)

end

/-- `AnthropicMessageContent`: untagged, `Text { content: String }`
tried before `Blocks { content: Vec<_> }`. -/
inductive AnthropicMessageContent where
  | Text (content : String)
  | Blocks (content : List AnthropicContentBlock)

/-- `AnthropicMessage`. -/
structure AnthropicMessage where
  role : AnthropicRole
  content : AnthropicMessageContent

/-- `AnthropicTool`. -/
structure AnthropicTool where
  name : String
  description : Option String
  input_schema : Json

/-- `AnthropicToolChoiceMode` (lowercase serde names). -/
inductive AnthropicToolChoiceMode where
  | auto
  | any
  | noChoice
  | tool
deriving Repr, DecidableEq

/-- `AnthropicToolChoice`: untagged, `Named` tried before `Simple`. -/
inductive AnthropicToolChoice where
  | Named (choice_type : AnthropicToolChoiceMode) (name : String)
  | Simple (choice_type : AnthropicToolChoiceMode)

/-- `AnthropicCreateMessageRequest` (`convert/types.rs`). -/
structure AnthropicCreateMessageRequest where
  model : String
  max_tokens : Nat
  messages : List AnthropicMessage
  system : Option String
  temperature : Option Int
  top_p : Option Int
  top_k : Option Nat
  stop_sequences : Option (List String)
  stream : Bool
  metadata : Option Json
  tools : Option (List AnthropicTool)
  tool_choice : Option AnthropicToolChoice

/-- `u32` extraction for `max_tokens` / `top_k`. -/
def Json.asU32 : Json → Option Nat
  | .num n => if 0 ≤ n ∧ n < 2 ^ 32 then some n.toNat else none
  | _ => none

/-- Integral number extraction for the `f32` fields of the model. -/
def Json.asNum : Json → Option Int
  | .num n => some n
  | _ => none

/-- serde handling of an `Option` struct field: missing or `null` is
`None`; any other value must parse. -/
def parseOptField (fs : List (String × Json)) (k : String)
    (p : Json → Option α) : Option (Option α) :=
  match fs.lookup k with
  | none => some none
  | some .null => some none
  | some v => (p v).map some

mutual

/-- Typed parse of one content block.  The `fuel` argument only bounds
the `tool_result` nesting recursion; callers seed it with `sizeOf` of
the value, which strictly exceeds every recursion depth reachable in the
value, so the `0` case is never taken. -/
def parseBlock : Nat → Json → Option AnthropicContentBlock
  | 0, _ => none
  | fuel + 1, j =>
    match j with
    | .obj fs =>
      match fs.lookup "type" with
      | some (.str t) =>
        if t = "text" then
          match fs.lookup "text" with
          | some (.str s) => some (.Text s)
          | _ => none
        else if t = "image" then
          match fs.lookup "source" with
          | some (.obj sfs) =>
            match sfs.lookup "type", sfs.lookup "media_type", sfs.lookup "data" with
            | some (.str st), some (.str mt), some (.str d) => some (.Image st mt d)
            | _, _, _ => none
          | _ => none
        else if t = "tool_use" then
          match fs.lookup "id", fs.lookup "name", fs.lookup "input" with
          | some (.str i), some (.str n), some input => some (.ToolUse i n input)
          | _, _, _ => none
        else if t = "tool_result" then
          match fs.lookup "tool_use_id" with
          | some (.str tid) => do
              let content ← parseOptField fs "content" (parseTRC fuel)
              let is_error ← parseOptField fs "is_error" Json.asBool
              some (.ToolResult tid content is_error)
          | _ => none
        else some .Other
      | _ => none
    | _ => none

/-- Typed parse of `ToolResultContent` (untagged: string, then blocks). -/
def parseTRC : Nat → Json → Option ToolResultContent
  | 0, _ => none
  | fuel + 1, .str s => some (.TRText s)
  | fuel + 1, .arr xs => (xs.mapM (parseBlock fuel)).map .TRBlocks
  | _ + 1, _ => none

end

/-- Typed parse of the flattened, untagged message content. -/
def parseContent (v : Json) : Option AnthropicMessageContent :=
  match v with
  | .str s => some (.Text s)
  | .arr xs => (xs.mapM (fun b => parseBlock (Json.size b + 1) b)).map .Blocks
  | _ => none

/-- Typed parse of a role string. -/
def parseRole (v : Json) : Option AnthropicRole :=
  match v with
  | .str "user" => some .user
  | .str "assistant" => some .assistant
  | _ => none

/-- Typed parse of one message. -/
def parseMessage (j : Json) : Option AnthropicMessage :=
  match j with
  | .obj fs => do
      let roleJ ← fs.lookup "role"
      let role ← parseRole roleJ
      let contentJ ← fs.lookup "content"
      let content ← parseContent contentJ
      some ⟨role, content⟩
  | _ => none

/-- `deserialize_system_prompt`: a plain string, or an array of
`SystemBlock { text }` joined with newlines. -/
def parseSystem (v : Json) : Option String :=
  match v with
  | .str s => some s
  | .arr xs =>
      Option.map (String.intercalate "\n")
        (xs.mapM fun b =>
          match b with
          | .obj fs =>
            match fs.lookup "text" with
            | some (.str t) => some t
            | _ => none
          | _ => none)
  | _ => none

/-- Typed parse of one tool definition. -/
def parseTool (j : Json) : Option AnthropicTool :=
  match j with
  | .obj fs => do
      let name ← (fs.lookup "name").bind Json.asStr
      let description ← parseOptField fs "description" Json.asStr
      let input_schema ← fs.lookup "input_schema"
      some ⟨name, description, input_schema⟩
  | _ => none

/-- Typed parse of a tool-choice mode string. -/
def parseChoiceMode (v : Json) : Option AnthropicToolChoiceMode :=
  match v with
  | .str "auto" => some .auto
  | .str "any" => some .any
  | .str "none" => some .noChoice
  | .str "tool" => some .tool
  | _ => none

/-- Typed parse of `AnthropicToolChoice` (untagged: `Named` requires a
string `name`, otherwise `Simple` succeeds on a valid `type` alone). -/
def parseToolChoice (j : Json) : Option AnthropicToolChoice :=
  match j with
  | .obj fs => do
      let mode ← (fs.lookup "type").bind parseChoiceMode
      match fs.lookup "name" with
      | some (.str n) => some (.Named mode n)
      | _ => some (.Simple mode)
  | _ => none

/-- The typed parse attempted by `validate_request`:
`serde_json::from_slice::<AnthropicCreateMessageRequest>` on a body that
parsed to the JSON value `j`. -/
def parseTyped (j : Json) : Option AnthropicCreateMessageRequest :=
  match j with
  | .obj fs => do
      let model ← (fs.lookup "model").bind Json.asStr
      let max_tokens ← (fs.lookup "max_tokens").bind Json.asU32
      let msgsJ ← fs.lookup "messages"
      let messages ←
        match msgsJ with
        | .arr xs => xs.mapM parseMessage
        | _ => none
      let system ← parseOptField fs "system" parseSystem
      let temperature ← parseOptField fs "temperature" Json.asNum
      let top_p ← parseOptField fs "top_p" Json.asNum
      let top_k ← parseOptField fs "top_k" Json.asU32
      let stop_sequences ← parseOptField fs "stop_sequences"
        (fun v => match v with
          | .arr xs => xs.mapM Json.asStr
          | _ => none)
      let stream ←
        match fs.lookup "stream" with
        | none => some false
        | some v => v.asBool
      let metadata ← parseOptField fs "metadata" some
      let tools ← parseOptField fs "tools"
        (fun v => match v with
          | .arr xs => xs.mapM parseTool
          | _ => none)
      let tool_choice ← parseOptField fs "tool_choice" parseToolChoice
      some ⟨model, max_tokens, messages, system, temperature, top_p, top_k,
            stop_sequences, stream, metadata, tools, tool_choice⟩
  | _ => none

/-! ### `validate_request` (`convert/validation.rs`) -/

/-- `ValidationSeverity`. -/
inductive ValidationSeverity where
  | High
  | Medium
deriving Repr, DecidableEq

/-- `ValidationSeverity::as_str`. -/
def ValidationSeverity.as_str : ValidationSeverity → String
  | .High => "high"
  | .Medium => "medium"

/-- `ValidationFinding`. -/
structure ValidationFinding where
  severity : ValidationSeverity
  category : String
  message : String
  block_type : Option String
  message_index : Option Nat
  role : Option String
deriving Repr, DecidableEq

/-- `ValidationReport`. -/
structure ValidationReport where
  typed_parse_succeeded : Bool
  findings : List ValidationFinding
  unknown_block_types : List String
deriving Repr, DecidableEq

/-- The raw-value cross-reference of `validate_request`: recover the
literal `type` string of the block at `(msg_idx, block_idx)`, defaulting
to `"unknown"`. -/
def recoverTypeName (raw : Json) (msg_idx block_idx : Nat) : String :=
  (((((raw.getField "messages").bind (fun ms => ms.getIdx msg_idx)).bind
      (fun m => m.getField "content")).bind
      (fun c => c.getIdx block_idx)).bind
      (fun b => b.getField "type")).bind Json.asStr |>.getD "unknown"

/-- The medium-severity finding pushed for one `Other` block. -/
def mkUnknownFinding (raw : Json) (msg_idx block_idx : Nat)
    (role : AnthropicRole) : ValidationFinding :=
  let type_name := recoverTypeName raw msg_idx block_idx
  { severity := .Medium
    category := "unknown_content_block"
    message := "Unknown content block type \"" ++ type_name ++ "\" in "
      ++ role.roleStr ++ " message at index " ++ toString msg_idx
    block_type := some type_name
    message_index := some msg_idx
    role := some role.roleStr }

/-- The `if !unknown_types.contains(&type_name) { push }` dedup step. -/
def dedupPush (uts : List String) (name : String) : List String :=
  if name ∈ uts then uts else uts ++ [name]

/-- The inner `for (block_idx, block)` loop of `validate_request`,
accumulating findings and the deduplicated unknown type names. -/
def scanBlocks (raw : Json) (msg_idx : Nat) (role : AnthropicRole) :
    List AnthropicContentBlock → Nat → List ValidationFinding → List String →
      List ValidationFinding × List String
  | [], _, fnd, uts => (fnd, uts)
  | b :: rest, block_idx, fnd, uts =>
      match b with
      | .Other =>
          scanBlocks raw msg_idx role rest (block_idx + 1)
            (fnd ++ [mkUnknownFinding raw msg_idx block_idx role])
            (dedupPush uts (recoverTypeName raw msg_idx block_idx))
      | _ => scanBlocks raw msg_idx role rest (block_idx + 1) fnd uts

/-- The outer `for (msg_idx, msg)` loop of `validate_request`
(string-content messages are skipped). -/
def scanMessages (raw : Json) :
    List AnthropicMessage → Nat → List ValidationFinding → List String →
      List ValidationFinding × List String
  | [], _, fnd, uts => (fnd, uts)
  | m :: rest, msg_idx, fnd, uts =>
      match m.content with
      | .Text _ => scanMessages raw rest (msg_idx + 1) fnd uts
      | .Blocks blocks =>
          let (fnd', uts') := scanBlocks raw msg_idx m.role blocks 0 fnd uts
          scanMessages raw rest (msg_idx + 1) fnd' uts'

/-- The single high-severity finding of a failed typed parse.  The serde
error text interpolated into the Rust message is not modelled. -/
def typedParseFailureFinding : ValidationFinding :=
  { severity := .High
    category := "typed_parse_failure"
    message := "Typed deserialization failed"
    block_type := none
    message_index := none
    role := none }

/-- `validate_request` (`convert/validation.rs`).  In `handle_messages`
both arguments — the body bytes and the permissively parsed value —
denote the same JSON document, here the value `raw`. -/
def validate_request (raw : Json) : ValidationReport :=
  match parseTyped raw with
  | none =>
      { typed_parse_succeeded := false
        findings := [typedParseFailureFinding]
        unknown_block_types := [] }
  | some typed =>
      let (findings, unknown_types) := scanMessages raw typed.messages 0 [] []
      { typed_parse_succeeded := true
        findings := findings
        unknown_block_types := unknown_types }

/-! ## Derived forms used to state the theorems -/

/-- The top-level fields of a request object other than `model` and
`max_tokens` — the fields the rewriter must leave untouched. -/
def otherFields (fs : List (String × Json)) : List (String × Json) :=
  fs.filter fun kv => kv.1 ≠ "model" ∧ kv.1 ≠ "max_tokens"

/-- The `input_tokens` contribution of one event to the stats extractor:
`some (true, v)` for a `message_start` whose `message.usage.input_tokens`
reads as a `u64`, `some (false, v)` for a `message_delta` whose
`usage.input_tokens` does, `none` otherwise.  Derived from
`streamStatsStep`, to state its closed form. -/
def eventInputContribution (e : SSEEvent) : Option (Bool × Nat) :=
  match e.etype with
  | some t =>
    if t = "message_start" then
      (((e.data.getField "message").bind (·.getField "usage")).bind
        (fun u => (u.getField "input_tokens").bind Json.asU64)).map (fun v => (true, v))
    else if t = "message_delta" then
      ((e.data.getField "usage").bind
        (fun u => (u.getField "input_tokens").bind Json.asU64)).map (fun v => (false, v))
    else none
  | none => none

/-- All input-token-carrying events of a stream, in order, tagged with
whether they are `message_start` events. -/
def inputCarriers (events : List SSEEvent) : List (Bool × Nat) :=
  events.filterMap eventInputContribution

/-- The claim's "whichever of `message_start` / `message_delta` delivers
it first": the value of the first input-token-carrying event. -/
def specFirstDeliveredInput (events : List SSEEvent) : Option Nat :=
  (inputCarriers events).head?.map (·.2)

/-- Sum of the `message_start` input-token contributions — what the
extractor adds once the seen flag is set. -/
def sumStartInputs : List SSEEvent → Nat
  | [] => 0
  | e :: rest =>
      (match eventInputContribution e with
       | some (true, v) => v
       | _ => 0) + sumStartInputs rest

/-- Closed form of the extractor's total `input_tokens` addition from a
fresh seen flag: the first carrier's value plus every later
`message_start` contribution. -/
def firstWinsInputs : List SSEEvent → Nat
  | [] => 0
  | e :: rest =>
      match eventInputContribution e with
      | some (_, v) => v + sumStartInputs rest
      | none => firstWinsInputs rest

/-- The `input_tokens` contribution of one event to the streaming
attribute extractor (`as_i64` reads), tagged with whether it comes from
`message_start`. -/
def promptContribution (e : SSEEvent) : Option (Bool × Int) :=
  match e.etype with
  | some t =>
    if t = "message_start" then
      (((e.data.getField "message").bind (·.getField "usage")).bind
        (fun u => (u.getField "input_tokens").bind Json.asI64)).map (fun v => (true, v))
    else if t = "message_delta" then
      ((e.data.getField "usage").bind
        (fun u => (u.getField "input_tokens").bind Json.asI64)).map (fun v => (false, v))
    else none
  | none => none

/-- All attribute-level input-token carriers of a stream, in order. -/
def promptCarriers (events : List SSEEvent) : List (Bool × Int) :=
  events.filterMap promptContribution

/-- The amount one event adds to `input_tokens` given the seen flag: a
`message_start` carrier adds unconditionally, a `message_delta` carrier
only when nothing was seen yet. -/
def contributedInput (c : Option (Bool × Nat)) (seen : Bool) : Nat :=
  match c, seen with
  | some (_, v), false => v
  | some (true, v), true => v
  | _, _ => 0

/-- A canonical stream: `message_start` delivers `input_tokens` first,
`message_delta` repeats them alongside `output_tokens`. -/
def canonicalStreamEvents : List SSEEvent :=
  [⟨some "message_start",
    .obj [("message", .obj [("usage", .obj [("input_tokens", .num 50)])])]⟩,
   ⟨some "message_delta",
    .obj [("usage", .obj [("output_tokens", .num 20), ("input_tokens", .num 50)])]⟩]

/-- A stream refuting the first-delivered rule: `message_delta` carries
`input_tokens` before `message_start` does.  Corresponds to the SSE body
`event: message_delta\ndata: ...\n\nevent: message_start\ndata: ...`. -/
def deltaThenStartEvents : List SSEEvent :=
  [⟨some "message_delta",
    .obj [("usage", .obj [("input_tokens", .num 5), ("output_tokens", .num 1)])]⟩,
   ⟨some "message_start",
    .obj [("message", .obj [("usage", .obj [("input_tokens", .num 5)])])]⟩]

/-- Number of `Other` blocks in a block list. -/
def countOtherBlocks : List AnthropicContentBlock → Nat
  | [] => 0
  | .Other :: rest => 1 + countOtherBlocks rest
  | _ :: rest => countOtherBlocks rest

/-- Number of `Other` blocks across the messages of a typed request
(string-content messages contribute none). -/
def countOther : List AnthropicMessage → Nat
  | [] => 0
  | m :: rest =>
      (match m.content with
       | .Text _ => 0
       | .Blocks bs => countOtherBlocks bs) + countOther rest

/-- Closed form of the findings `scanBlocks` appends for one message. -/
def othersFindings (raw : Json) (msg_idx : Nat) (role : AnthropicRole) :
    List AnthropicContentBlock → Nat → List ValidationFinding
  | [], _ => []
  | .Other :: rest, bi =>
      mkUnknownFinding raw msg_idx bi role :: othersFindings raw msg_idx role rest (bi + 1)
  | _ :: rest, bi => othersFindings raw msg_idx role rest (bi + 1)

/-- Closed form of the unknown-type names `scanBlocks` pushes for one
message, with multiplicity and in encounter order. -/
def othersNames (raw : Json) (msg_idx : Nat) :
    List AnthropicContentBlock → Nat → List String
  | [], _ => []
  | .Other :: rest, bi =>
      recoverTypeName raw msg_idx bi :: othersNames raw msg_idx rest (bi + 1)
  | _ :: rest, bi => othersNames raw msg_idx rest (bi + 1)

/-- Closed form of all findings across the messages. -/
def allFindings (raw : Json) : List AnthropicMessage → Nat → List ValidationFinding
  | [], _ => []
  | m :: rest, mi =>
      (match m.content with
       | .Text _ => []
       | .Blocks bs => othersFindings raw mi m.role bs 0) ++ allFindings raw rest (mi + 1)

/-- Closed form of all unknown-type names across the messages, with
multiplicity and in encounter order. -/
def allNames (raw : Json) : List AnthropicMessage → Nat → List String
  | [], _ => []
  | m :: rest, mi =>
      (match m.content with
       | .Text _ => []
       | .Blocks bs => othersNames raw mi bs 0) ++ allNames raw rest (mi + 1)

/-- A request every one of whose content blocks has a recognised type
(its single message carries plain string content) but which fails the
typed parse: `max_tokens` is missing.  This is the
`test_invalid_request_high_severity` input of `validation.rs`. -/
def reqMissingMaxTokens : Json :=
  .obj [("model", .str "test"),
        ("messages", .arr [.obj [("role", .str "user"), ("content", .str "Hi")]])]

/-- A well-formed request with the same unknown block type (`thinking`)
in two messages — the `test_unknown_blocks_deduplicated` input of
`validation.rs`. -/
def reqDupUnknown : Json :=
  .obj [("model", .str "test"), ("max_tokens", .num 100),
    ("messages", .arr [
      .obj [("role", .str "assistant"), ("content", .arr [
        .obj [("type", .str "thinking"), ("thinking", .str "a")],
        .obj [("type", .str "text"), ("text", .str "one")]])],
      .obj [("role", .str "assistant"), ("content", .arr [
        .obj [("type", .str "thinking"), ("thinking", .str "b")],
        .obj [("type", .str "text"), ("text", .str "two")]])]])]

/-- The typed parse of `reqDupUnknown`. -/
def reqDupUnknownTyped : AnthropicCreateMessageRequest :=
  { model := "test", max_tokens := 100,
    messages := [⟨.assistant, .Blocks [.Other, .Text "one"]⟩,
                 ⟨.assistant, .Blocks [.Other, .Text "two"]⟩],
    system := none, temperature := none, top_p := none, top_k := none,
    stop_sequences := none, stream := false, metadata := none, tools := none,
    tool_choice := none }

/-! # Helper lemmas -/

theorem lookup_insertField_self (fs : List (String × Json)) (k : String) (v : Json) :
    (insertField fs k v).lookup k = some v := by
  induction fs with
  | nil => simp [insertField]
  | cons hd tl ih =>
      obtain ⟨k', v'⟩ := hd
      by_cases hk : k' = k
      · subst hk; simp [insertField]
      · have hb : (k == k') = false := beq_eq_false_iff_ne.mpr (Ne.symm hk)
        simp [insertField, hk, List.lookup, hb, ih]

theorem otherFields_insertField (fs : List (String × Json)) (k : String) (v : Json)
    (hk : k = "model" ∨ k = "max_tokens") :
    otherFields (insertField fs k v) = otherFields fs := by
  have hknot : ¬(k ≠ "model" ∧ k ≠ "max_tokens") := by
    rcases hk with h | h <;> subst h <;> simp
  induction fs with
  | nil => simp [insertField, otherFields, List.filter, hknot]
  | cons hd tl ih =>
      obtain ⟨k', v'⟩ := hd
      by_cases hkk : k' = k
      · subst hkk
        simp [insertField, otherFields, List.filter, hknot]
      · simp only [insertField, hkk, if_false, otherFields, List.filter] at *
        rw [ih]

/-- When `max_tokens` is already present and non-null, the default pass
is the identity. -/
theorem withMaxTokensDefault_id (fs : List (String × Json))
    (h : maxTokensMissingOrNull (fs.lookup "max_tokens") = false) :
    withMaxTokensDefault fs = fs := by
  simp [withMaxTokensDefault, h]

/-- The field-list patch always leaves `max_tokens` present and
non-null. -/
theorem rewriteFields_max_tokens (fs : List (String × Json)) (m : Option String) :
    maxTokensMissingOrNull ((rewriteFields fs m).lookup "max_tokens") = false := by
  unfold rewriteFields withMaxTokensDefault
  split
  · rw [lookup_insertField_self]
    rfl
  · next h => simpa using h

/-! # Claim theorems -/

/-- C10: after `RuntimeMode::set(m)`, `RuntimeMode::get` returns exactly
`m` for each of the three modes, and decoding is total: any stored byte
outside {0, 1, 2} decodes to `Compare`, so `get` never fails. -/
theorem mode_register_roundtrip_total (m : ProxyMode) (b : Nat) :
    RuntimeMode.get (RuntimeMode.set m) = m ∧
    (b ≠ 0 → b ≠ 1 → b ≠ 2 → ProxyMode.from_u8 b = .Compare) := by
  constructor
  · cases m <;> rfl
  · intro h0 h1 h2
    simp [ProxyMode.from_u8, h0, h1, h2]

theorem mode_register_roundtrip_total_witness :
    RuntimeMode.get (RuntimeMode.set .TargetOnly) = .TargetOnly ∧
    ProxyMode.from_u8 7 = .Compare :=
  ⟨(mode_register_roundtrip_total .TargetOnly 7).1,
   (mode_register_roundtrip_total .TargetOnly 7).2 (by decide) (by decide) (by decide)⟩

/-- C6: a timed-out upstream send yields 504 Gateway Timeout, any other
connect/transport error yields 502 Bad Gateway, and on success the
upstream status is copied verbatim, mapped to 502 only when it is
numerically invalid (outside the 100..=999 range `StatusCode::from_u16`
accepts). -/
theorem upstream_status_mapping (cid : String) (strm : Bool) (msg : String)
    (resp : UpstreamResponse) :
    (build_response (.error .timeout) cid strm).status = 504 ∧
    (build_response (.error (.connect msg)) cid strm).status = 502 ∧
    (build_response (.ok resp) cid strm).status =
      (if 100 ≤ resp.status ∧ resp.status ≤ 999 then resp.status else 502) :=
  ⟨rfl, rfl, rfl⟩

/-- The patch leaves every field other than `model` and `max_tokens`
untouched: same fields, same values, same relative order. -/
theorem otherFields_rewriteFields (fs : List (String × Json)) (m : Option String) :
    otherFields (rewriteFields fs m) = otherFields fs := by
  have h1 : otherFields (match m with
      | some mm => insertField fs "model" (.str mm)
      | none => fs) = otherFields fs := by
    cases m with
    | none => rfl
    | some mm => exact otherFields_insertField _ _ _ (Or.inl rfl)
  unfold rewriteFields withMaxTokensDefault
  split
  · rw [otherFields_insertField _ _ _ (Or.inr rfl)]
    exact h1
  · exact h1

/-- C4 counterexample: the body `\x7b"a":"\u0041"\x7d` parses as a JSON
object whose only field, `a`, is neither `model` nor `max_tokens`, and
its literal encoding in the body is `"a":"\u0041"`.  The rewriter's
parse/re-serialize emits that field as `"a":"A"` — the produced body no
longer contains the original literal encoding — refuting "preserves the
original literal JSON encoding of every top-level field other than
`model` and `max_tokens`". -/
theorem rewrite_encoding_counterexample :
    rewrite_request_body_bytes "\x7b\"a\":\"\\u0041\"\x7d" none =
      some "\x7b\"a\":\"A\",\"max_tokens\":65536\x7d" ∧
    strContains "\x7b\"a\":\"\\u0041\"\x7d" "\"a\":\"\\u0041\"" = true ∧
    strContains "\x7b\"a\":\"A\",\"max_tokens\":65536\x7d" "\"a\":\"\\u0041\"" = false ∧
    strContains "\x7b\"a\":\"A\",\"max_tokens\":65536\x7d" "\"a\":\"A\"" = true :=
  ⟨rfl, by decide, by decide, by decide⟩

/-- C4 (amended): for every body that parses as a JSON object, the
rewriter's output is the canonical serde serialization of the patched
value, in which every top-level field other than `model` and
`max_tokens` keeps its parsed value and its relative order — so its
encoding is preserved up to serde's re-serialization, verbatim exactly
when the body already used the canonical encoding.  The original
literal spelling of a field (e.g. `\u` escapes) is not preserved, as
the counterexample shows. -/
theorem rewrite_preserves_other_fields_amended (body : String)
    (fs : List (String × Json)) (m : Option String)
    (hp : parseJsonText body = some (.obj fs)) :
    rewrite_request_body_bytes body m = some (Json.ser (.obj (rewriteFields fs m))) ∧
    otherFields (rewriteFields fs m) = otherFields fs ∧
    (otherFields (rewriteFields fs m)).map (fun kv => (kv.1, Json.ser kv.2)) =
      (otherFields fs).map (fun kv => (kv.1, Json.ser kv.2)) := by
  refine ⟨?_, otherFields_rewriteFields fs m, by rw [otherFields_rewriteFields]⟩
  simp [rewrite_request_body_bytes, hp, rewrite_request_body]

theorem rewrite_preserves_other_fields_amended_witness :
    parseJsonText "\x7b\"extra\":1,\"model\":\"orig\"\x7d" =
      some (.obj [("extra", .num 1), ("model", .str "orig")]) ∧
    rewrite_request_body_bytes "\x7b\"extra\":1,\"model\":\"orig\"\x7d"
        (some "override-x") =
      some (Json.ser (.obj (rewriteFields
        [("extra", .num 1), ("model", .str "orig")] (some "override-x")))) ∧
    otherFields (rewriteFields [("extra", .num 1), ("model", .str "orig")]
        (some "override-x")) =
      otherFields [("extra", .num 1), ("model", .str "orig")] :=
  ⟨rfl,
   (rewrite_preserves_other_fields_amended "\x7b\"extra\":1,\"model\":\"orig\"\x7d"
      [("extra", .num 1), ("model", .str "orig")] (some "override-x") rfl).1,
   (rewrite_preserves_other_fields_amended "\x7b\"extra\":1,\"model\":\"orig\"\x7d"
      [("extra", .num 1), ("model", .str "orig")] (some "override-x") rfl).2.1⟩

/-- C8: rewriting an already-rewritten body again with no override is the
identity — after the first pass `max_tokens` is present and non-null, so
the second pass changes nothing and reserializes to the same bytes. -/
theorem rewrite_idempotent (v : Json) (m : Option String) :
    rewrite_request_body (rewrite_request_body v m) none = rewrite_request_body v m ∧
    Json.ser (rewrite_request_body (rewrite_request_body v m) none) =
      Json.ser (rewrite_request_body v m) := by
  have key : rewrite_request_body (rewrite_request_body v m) none =
      rewrite_request_body v m := by
    cases v with
    | obj fs =>
        show Json.obj (rewriteFields (rewriteFields fs m) none) =
          Json.obj (rewriteFields fs m)
        have : rewriteFields (rewriteFields fs m) none = rewriteFields fs m :=
          withMaxTokensDefault_id _ (rewriteFields_max_tokens fs m)
        rw [this]
    | null => rfl
    | bool b => rfl
    | num n => rfl
    | str s => rfl
    | arr xs => rfl
  exact ⟨key, by rw [key]⟩

/-- Closed form of driving the tap: items delivered equal the inner
stream, and the final buffer appends exactly the successful chunks. -/
theorem run_spec (inner : List (Except String (List Nat))) :
    ∀ buf strm fc,
      ((TeeBody.mk inner buf strm fc).run).1 = inner ∧
      ((TeeBody.mk inner buf strm fc).run).2.buffer = buf ++ TeeBody.okBytes inner := by
  induction inner with
  | nil =>
      intro buf strm fc
      simp [TeeBody.run, TeeBody.poll_next, TeeBody.okBytes]
  | cons i rest ih =>
      intro buf strm fc
      cases i with
      | ok c =>
          have ih' := ih (buf ++ c) strm true
          rcases hr : TeeBody.run ⟨rest, buf ++ c, strm, true⟩ with ⟨r, tf⟩
          rw [hr] at ih'
          obtain ⟨ih1, ih2⟩ := ih'
          simp only [Prod.fst, Prod.snd] at ih1 ih2
          rw [TeeBody.run]
          simp [TeeBody.poll_next, hr, TeeBody.okBytes, ih1, ih2, List.append_assoc]
      | error e =>
          have ih' := ih buf strm fc
          rcases hr : TeeBody.run ⟨rest, buf, strm, fc⟩ with ⟨r, tf⟩
          rw [hr] at ih'
          obtain ⟨ih1, ih2⟩ := ih'
          simp only [Prod.fst, Prod.snd] at ih1 ih2
          rw [TeeBody.run]
          simp [TeeBody.poll_next, hr, TeeBody.okBytes, ih1, ih2]

/-- C1: the tap delivers to the client exactly the poll items of the
upstream stream — same chunks, same boundaries, same order, errors
passed through — for any upstream response (any status, streaming or
not); the side buffer only accumulates a copy of the successful chunks
and never alters what is forwarded.  `build_response` wraps the upstream
byte stream in such a tap with an empty buffer. -/
theorem tee_body_passthrough_exact (t : TeeBody) (resp : UpstreamResponse)
    (cid : String) (strm : Bool) :
    (t.run).1 = t.inner ∧
    (t.run).2.buffer = t.buffer ++ TeeBody.okBytes t.inner ∧
    (build_response (.ok resp) cid strm).body =
      .stream ⟨resp.bodyStream, [], strm, false⟩ := by
  obtain ⟨inner, buf, s2, fc⟩ := t
  exact ⟨(run_spec inner buf s2 fc).1, (run_spec inner buf s2 fc).2, rfl⟩

/-- C2 counterexample: the error responses of the `/v1/messages` path do
not carry the `x-shadow-request-id` header — neither the 403 of the
anthropic-only gate nor the 504/502 built for a failed upstream send —
refuting "every response carries the correlation header". -/
theorem correlation_header_missing_on_errors :
    List.lookup CORRELATION_HEADER
      (handle_messages_response .AnthropicOnly false "cid-1" false
        (.error .timeout)).headers = none ∧
    List.lookup CORRELATION_HEADER
      (build_response (.error .timeout) "cid-1" false).headers = none ∧
    List.lookup CORRELATION_HEADER
      (build_response (.error (.connect "connection refused")) "cid-1"
        false).headers = none :=
  ⟨rfl, rfl, rfl⟩

/-- C2 (amended): when the upstream send succeeds, the response carries
`x-shadow-request-id` with the generated correlation ID (valid header
values pass through unchanged), and the same value is set on the
upstream request; the locally-built error responses — the gate 403, the
504 on timeout and the 502 on transport error — are returned without the
header. -/
theorem correlation_header_amended (resp : UpstreamResponse)
    (incoming : List (String × String)) (cid : String) (strm : Bool) (msg : String)
    (hv : validHeaderValue cid = true) :
    (CORRELATION_HEADER, cid) ∈ (build_response (.ok resp) cid strm).headers ∧
    (CORRELATION_HEADER, cid) ∈ upstream_request_headers incoming cid ∧
    List.lookup CORRELATION_HEADER gate403Response.headers = none ∧
    List.lookup CORRELATION_HEADER
      (build_response (.error .timeout) cid strm).headers = none ∧
    List.lookup CORRELATION_HEADER
      (build_response (.error (.connect msg)) cid strm).headers = none := by
  refine ⟨?_, ?_, rfl, rfl, rfl⟩
  · simp [build_response, hv]
  · simp [upstream_request_headers]

theorem correlation_header_amended_witness :
    validHeaderValue "abc" = true ∧
    (CORRELATION_HEADER, "abc") ∈
      (build_response (.ok ⟨200, [], []⟩) "abc" false).headers :=
  ⟨by decide,
   (correlation_header_amended ⟨200, [], []⟩ [] "abc" false "x" (by decide)).1⟩

/-- C7: with `anthropic_only_allowed = false`, a `/v1/messages` request
under the anthropic-only mode returns the 403 JSON-error gate response
instead of forwarding; `PUT /api/mode` requesting `anthropic-only`
returns 403 and leaves the mode register unchanged; and a mode string
outside {target, compare, anthropic-only} returns 400, register
unchanged. -/
theorem anthropic_only_gate (p1 p2 : Json) (cur1 cur2 : ProxyMode) (allowed : Bool)
    (s : String) (cid : String) (strm : Bool)
    (up : Except UpstreamError UpstreamResponse)
    (h1 : p1.getField "mode" = some (.str "anthropic-only"))
    (h2 : p2.getField "mode" = some (.str s))
    (h3 : ProxyMode.ofString s = none) :
    handle_messages_response .AnthropicOnly false cid strm up = gate403Response ∧
    gate403Response.status = 403 ∧
    gate403Response.body = .jsonError gateErrorMsg ∧
    handle_set_mode p1 false cur1 = (403, cur1) ∧
    handle_set_mode p2 allowed cur2 = (400, cur2) := by
  refine ⟨rfl, rfl, rfl, ?_, ?_⟩
  · simp [handle_set_mode, h1, Json.asStr, ProxyMode.ofString]
  · simp [handle_set_mode, h2, Json.asStr, h3]

theorem anthropic_only_gate_witness :
    handle_set_mode (.obj [("mode", .str "anthropic-only")]) false .TargetOnly
      = (403, .TargetOnly) ∧
    handle_set_mode (.obj [("mode", .str "bogus")]) true .Compare = (400, .Compare) :=
  ⟨(anthropic_only_gate (.obj [("mode", .str "anthropic-only")])
      (.obj [("mode", .str "bogus")]) .TargetOnly .Compare true "bogus" "c" false
      (.error .timeout) rfl rfl rfl).2.2.2.1,
   (anthropic_only_gate (.obj [("mode", .str "anthropic-only")])
      (.obj [("mode", .str "bogus")]) .TargetOnly .Compare true "bogus" "c" false
      (.error .timeout) rfl rfl rfl).2.2.2.2⟩

/-- C9: the compare dispatch is observational — the client response and
the process stats are the same whatever the compare task's environment
(so token usage in a compare response is only logged, never added), and
every failure terminates in a log record: semaphore full, timeout,
transport error, unreadable body; any status (2xx or not) of a readable
response is likewise only logged, with or without usage. -/
theorem compare_dispatch_observational (env env2 : CompareEnv)
    (primary : Except UpstreamError UpstreamResponse) (cid : String) (strm : Bool)
    (s : ProxyStats) (msg er : String) (st : Nat) (u : Json) :
    (process_compare_request env primary cid strm s).1 =
      (process_compare_request env2 primary cid strm s).1 ∧
    (process_compare_request env primary cid strm s).2.1 =
      (process_compare_request env2 primary cid strm s).2.1 ∧
    (process_compare_request env primary cid strm s).2.1 = s.inc_requests ∧
    compare_task ⟨false, env.send_result⟩ = .droppedSemaphoreFull ∧
    compare_task ⟨true, none⟩ = .timedOut ∧
    compare_task ⟨true, some (.error msg)⟩ = .transportFailed msg ∧
    compare_task ⟨true, some (.ok ⟨st, .error er⟩)⟩ = .bodyReadFailed st er ∧
    compare_task ⟨true, some (.ok ⟨st, .ok none⟩)⟩ = .complete st ∧
    compare_task ⟨true, some (.ok ⟨st, .ok (some (.obj [("usage", u)]))⟩)⟩ =
      .completeWithUsage st ((u.getField "input_tokens").bind Json.asU64)
        ((u.getField "output_tokens").bind Json.asU64) :=
  ⟨rfl, rfl, rfl, rfl, rfl, rfl, rfl, rfl, rfl⟩

theorem add_input_tokens_input (s : ProxyStats) (n : Nat) :
    (s.add_input_tokens n).input_tokens = s.input_tokens + n := rfl

theorem add_output_tokens_input (s : ProxyStats) (n : Nat) :
    (s.add_output_tokens n).input_tokens = s.input_tokens := rfl

theorem add_tool_calls_input (s : ProxyStats) (n : Nat) :
    (s.add_tool_calls n).input_tokens = s.input_tokens := rfl

/-- One step of the stats loop, characterized by the event's input-token
contribution: the counter grows by `contributedInput`, and the seen flag
ends up set iff it was set or the event carries input tokens. -/
theorem streamStatsStep_spec (s : ProxyStats) (seen : Bool) (e : SSEEvent) :
    (streamStatsStep s seen e).1.input_tokens =
      s.input_tokens + contributedInput (eventInputContribution e) seen ∧
    (streamStatsStep s seen e).2 = (seen || (eventInputContribution e).isSome) := by
  obtain ⟨et, d⟩ := e
  cases et with
  | none =>
      simp [streamStatsStep, eventInputContribution, contributedInput]
  | some t =>
      by_cases h1 : t = "message_start"
      · subst h1
        rcases hc : ((d.getField "message").bind (·.getField "usage")).bind
            (fun u => (u.getField "input_tokens").bind Json.asU64) with _ | v
        · simp [streamStatsStep, eventInputContribution, contributedInput, hc]
        · cases seen <;>
            simp [streamStatsStep, eventInputContribution, contributedInput, hc,
              add_input_tokens_input]
      · by_cases h2 : t = "message_delta"
        · subst h2
          rcases hu : d.getField "usage" with _ | usage
          · simp [streamStatsStep, eventInputContribution, contributedInput, h1, hu]
          · rcases ho : (usage.getField "output_tokens").bind Json.asU64 with _ | ov <;>
              rcases hi : (usage.getField "input_tokens").bind Json.asU64 with _ | iv <;>
              cases seen <;>
              simp [streamStatsStep, eventInputContribution, contributedInput, h1,
                hu, ho, hi, add_input_tokens_input, add_output_tokens_input]
        · by_cases h3 : t = "content_block_start"
          · subst h3
            rcases hcb : d.getField "content_block" with _ | cb
            · simp [streamStatsStep, eventInputContribution, contributedInput,
                h1, h2, hcb]
            · by_cases htu : (cb.getField "type" |>.bind Json.asStr) = some "tool_use" <;>
                simp [streamStatsStep, eventInputContribution, contributedInput,
                  h1, h2, hcb, htu, add_tool_calls_input]
          · simp [streamStatsStep, eventInputContribution, contributedInput,
              h1, h2, h3]

/-- Closed form of the loop's total `input_tokens` addition: with the
seen flag set only `message_start` carriers add; from a fresh flag the
first carrier adds, and after it only `message_start` carriers do. -/
theorem streamStatsLoop_input (evs : List SSEEvent) :
    ∀ (s : ProxyStats) (seen : Bool),
      (streamStatsLoop s seen evs).input_tokens =
        s.input_tokens + (if seen then sumStartInputs evs else firstWinsInputs evs) := by
  induction evs with
  | nil =>
      intro s seen
      cases seen <;> simp [streamStatsLoop, sumStartInputs, firstWinsInputs]
  | cons e rest ih =>
      intro s seen
      rcases hstep : streamStatsStep s seen e with ⟨s1, seen1⟩
      have hspec := streamStatsStep_spec s seen e
      rw [hstep] at hspec
      obtain ⟨hin, hflag⟩ := hspec
      simp only [Prod.fst, Prod.snd] at hin hflag
      have hloop : streamStatsLoop s seen (e :: rest) = streamStatsLoop s1 seen1 rest := by
        simp [streamStatsLoop, hstep]
      rw [hloop, ih s1 seen1, hin, hflag]
      rcases hc : eventInputContribution e with _ | ⟨b, v⟩
      · cases seen <;>
          simp [hc, contributedInput, sumStartInputs, firstWinsInputs, Nat.add_assoc]
      · cases b <;> cases seen <;>
          simp [hc, contributedInput, sumStartInputs, firstWinsInputs, Nat.add_assoc]

/-- Streams with no `message_start` carrier add nothing once the flag is
set. -/
theorem sumStartInputs_eq_zero (evs : List SSEEvent)
    (h : ∀ c ∈ inputCarriers evs, c.1 = false) : sumStartInputs evs = 0 := by
  induction evs with
  | nil => rfl
  | cons e rest ih =>
      rcases hc : eventInputContribution e with _ | ⟨b, v⟩
      · have : ∀ c ∈ inputCarriers rest, c.1 = false := by
          intro c hcm
          exact h c (by simp [inputCarriers, List.filterMap_cons, hc] at *; exact hcm)
        simp [sumStartInputs, hc, ih this]
      · have hb : b = false := by
          have := h (b, v) (by simp [inputCarriers, List.filterMap_cons, hc])
          simpa using this
        subst hb
        have : ∀ c ∈ inputCarriers rest, c.1 = false := by
          intro c hcm
          refine h c ?_
          simp [inputCarriers, List.filterMap_cons, hc]
          right; exact (by simpa [inputCarriers] using hcm)
        simp [sumStartInputs, hc, ih this]

/-- From a fresh flag, when every carrier after the first is a
`message_delta`, the total addition is exactly the first carrier's
value. -/
theorem firstWinsInputs_spec (evs : List SSEEvent)
    (H : ∀ c ∈ (inputCarriers evs).drop 1, c.1 = false) :
    firstWinsInputs evs = (specFirstDeliveredInput evs).getD 0 := by
  induction evs with
  | nil => rfl
  | cons e rest ih =>
      rcases hc : eventInputContribution e with _ | ⟨b, v⟩
      · have hcar : inputCarriers (e :: rest) = inputCarriers rest := by
          simp [inputCarriers, List.filterMap_cons, hc]
        rw [hcar] at H
        simp [firstWinsInputs, hc, specFirstDeliveredInput, hcar, ih H]
      · have hcar : inputCarriers (e :: rest) = (b, v) :: inputCarriers rest := by
          simp [inputCarriers, List.filterMap_cons, hc]
        rw [hcar] at H
        simp only [List.drop_succ_cons, List.drop_zero] at H
        have hz : sumStartInputs rest = 0 := sumStartInputs_eq_zero rest H
        simp [firstWinsInputs, hc, specFirstDeliveredInput, hcar, hz]

/-- One step of the attribute accumulation: a `message_start` carrier
overwrites, a `message_delta` carrier fills an empty slot, everything
else leaves the slot alone. -/
theorem promptStep_spec (acc : Option Int) (e : SSEEvent) :
    promptStep acc e =
      (match promptContribution e, acc with
       | some (true, v), _ => some v
       | some (false, v), none => some v
       | _, _ => acc) := by
  obtain ⟨et, d⟩ := e
  cases et with
  | none => simp [promptStep, promptContribution]
  | some t =>
      by_cases h1 : t = "message_start"
      · subst h1
        rcases hc : ((d.getField "message").bind (·.getField "usage")).bind
            (fun u => (u.getField "input_tokens").bind Json.asI64) with _ | v
        · cases acc <;> simp [promptStep, promptContribution, hc]
        · cases acc <;> simp [promptStep, promptContribution, hc]
      · by_cases h2 : t = "message_delta"
        · subst h2
          rcases hu : d.getField "usage" with _ | usage
          · cases acc <;> simp [promptStep, promptContribution, h1, hu]
          · rcases hi : (usage.getField "input_tokens").bind Json.asI64 with _ | iv <;>
              cases acc <;>
              simp [promptStep, promptContribution, h1, hu, hi]
        · cases acc <;> simp [promptStep, promptContribution, h1, h2]

/-- With the slot filled, streams whose carriers are all `message_delta`
never change it. -/
theorem promptLoop_no_start (evs : List SSEEvent)
    (h : ∀ c ∈ promptCarriers evs, c.1 = false) :
    ∀ v : Int, promptLoop (some v) evs = some v := by
  induction evs with
  | nil => intro v; rfl
  | cons e rest ih =>
      intro v
      rcases hc : promptContribution e with _ | ⟨b, w⟩
      · have hcar : promptCarriers (e :: rest) = promptCarriers rest := by
          simp [promptCarriers, List.filterMap_cons, hc]
        rw [hcar] at h
        simp [promptLoop, promptStep_spec, hc, ih h]
      · have hb : b = false := by
          have := h (b, w) (by simp [promptCarriers, List.filterMap_cons, hc])
          simpa using this
        subst hb
        have hcar : promptCarriers (e :: rest) = (false, w) :: promptCarriers rest := by
          simp [promptCarriers, List.filterMap_cons, hc]
        rw [hcar] at h
        have h' : ∀ c ∈ promptCarriers rest, c.1 = false := by
          intro c hcm; exact h c (by simp [hcm])
        simp [promptLoop, promptStep_spec, hc, ih h']

/-- When every carrier after the first is a `message_delta`, the emitted
prompt-token value is the first carrier's. -/
theorem streamingPromptTokens_spec (evs : List SSEEvent)
    (H : ∀ c ∈ (promptCarriers evs).drop 1, c.1 = false) :
    streamingPromptTokens evs = (promptCarriers evs).head?.map (·.2) := by
  unfold streamingPromptTokens
  induction evs with
  | nil => rfl
  | cons e rest ih =>
      rcases hc : promptContribution e with _ | ⟨b, v⟩
      · have hcar : promptCarriers (e :: rest) = promptCarriers rest := by
          simp [promptCarriers, List.filterMap_cons, hc]
        rw [hcar] at H ⊢
        rw [show promptLoop none (e :: rest) = promptLoop (promptStep none e) rest from rfl]
        rw [promptStep_spec]
        simp only [hc]
        exact ih H
      · have hcar : promptCarriers (e :: rest) = (b, v) :: promptCarriers rest := by
          simp [promptCarriers, List.filterMap_cons, hc]
        rw [hcar] at H ⊢
        simp only [List.drop_succ_cons, List.drop_zero] at H
        rw [show promptLoop none (e :: rest) = promptLoop (promptStep none e) rest from rfl]
        rw [promptStep_spec]
        cases b <;> simp only [hc] <;>
          simp [promptLoop_no_start rest H v]

/-- C3 counterexample: on the stream whose `message_delta` (carrying
`input_tokens = 5`) precedes its `message_start` (also carrying 5), the
extractor adds input tokens twice — the counter grows by 10, not by the
first-delivered value 5 — refuting "at most once, from whichever event
delivers it first" as stated over all SSE bodies. -/
theorem streaming_input_tokens_counterexample :
    (extract_streaming_stats ⟨0, 0, 0, 0⟩ deltaThenStartEvents).input_tokens = 10 ∧
    specFirstDeliveredInput deltaThenStartEvents = some 5 ∧
    (extract_streaming_stats ⟨0, 0, 0, 0⟩ deltaThenStartEvents).input_tokens ≠
      (0 : Nat) + (specFirstDeliveredInput deltaThenStartEvents).getD 0 :=
  ⟨by decide, by decide, by decide⟩

/-- C3 (amended): a `message_delta` carrier never adds after an earlier
carrier has (the seen flag), so on every stream in which at most the
first input-token carrier is a `message_start` — in particular the
canonical order, `message_start` first — the stats counter receives
exactly the first-delivered value, at most once; under the analogous
ordering the streaming attribute extractor emits
`llm.token_count.prompt` (at most once, being a single optional slot)
with the first-delivered value.  A `message_start` carrier, however,
adds unconditionally, which is what the counterexample exploits. -/
theorem streaming_input_tokens_amended (evs : List SSEEvent) (s : ProxyStats)
    (H : ∀ c ∈ (inputCarriers evs).drop 1, c.1 = false)
    (H2 : ∀ c ∈ (promptCarriers evs).drop 1, c.1 = false) :
    (extract_streaming_stats s evs).input_tokens =
      s.input_tokens + (specFirstDeliveredInput evs).getD 0 ∧
    streamingPromptTokens evs = (promptCarriers evs).head?.map (·.2) := by
  constructor
  · rw [show extract_streaming_stats s evs = streamStatsLoop s false evs from rfl,
        streamStatsLoop_input evs s false]
    simp [firstWinsInputs_spec evs H]
  · exact streamingPromptTokens_spec evs H2

theorem streaming_input_tokens_amended_witness :
    (extract_streaming_stats ⟨0, 0, 0, 0⟩ canonicalStreamEvents).input_tokens =
      (0 : Nat) + (specFirstDeliveredInput canonicalStreamEvents).getD 0 ∧
    streamingPromptTokens canonicalStreamEvents =
      (promptCarriers canonicalStreamEvents).head?.map (·.2) :=
  streaming_input_tokens_amended canonicalStreamEvents ⟨0, 0, 0, 0⟩
    (by decide) (by decide)

/-- Closed form of the inner block loop: findings are appended in block
order, names are dedup-folded. -/
theorem scanBlocks_eq (raw : Json) (mi : Nat) (role : AnthropicRole)
    (bs : List AnthropicContentBlock) :
    ∀ (bi : Nat) (fnd : List ValidationFinding) (uts : List String),
      scanBlocks raw mi role bs bi fnd uts =
        (fnd ++ othersFindings raw mi role bs bi,
         (othersNames raw mi bs bi).foldl dedupPush uts) := by
  induction bs with
  | nil => intro bi fnd uts; simp [scanBlocks, othersFindings, othersNames]
  | cons b rest ih =>
      intro bi fnd uts
      cases b with
      | Other => simp [scanBlocks, othersFindings, othersNames, ih]
      | Text t => simp [scanBlocks, othersFindings, othersNames, ih]
      | Image a b c => simp [scanBlocks, othersFindings, othersNames, ih]
      | ToolUse i n inp => simp [scanBlocks, othersFindings, othersNames, ih]
      | ToolResult tid c ie => simp [scanBlocks, othersFindings, othersNames, ih]

/-- Closed form of the outer message loop. -/
theorem scanMessages_eq (raw : Json) (msgs : List AnthropicMessage) :
    ∀ (mi : Nat) (fnd : List ValidationFinding) (uts : List String),
      scanMessages raw msgs mi fnd uts =
        (fnd ++ allFindings raw msgs mi,
         (allNames raw msgs mi).foldl dedupPush uts) := by
  induction msgs with
  | nil => intro mi fnd uts; simp [scanMessages, allFindings, allNames]
  | cons m rest ih =>
      intro mi fnd uts
      rcases m with ⟨role, content⟩
      cases content with
      | Text s => simp [scanMessages, allFindings, allNames, ih]
      | Blocks bs =>
          simp [scanMessages, allFindings, allNames, scanBlocks_eq, ih,
            List.foldl_append]

theorem mem_dedupPush (uts : List String) (n s : String) :
    s ∈ dedupPush uts n ↔ s ∈ uts ∨ s = n := by
  unfold dedupPush
  by_cases h : n ∈ uts
  · simp only [h, if_true]
    exact ⟨Or.inl, fun hh => hh.elim id (fun he => he ▸ h)⟩
  · simp [h]

theorem mem_foldl_dedupPush (names : List String) :
    ∀ (uts : List String) (s : String),
      s ∈ names.foldl dedupPush uts ↔ s ∈ uts ∨ s ∈ names := by
  induction names with
  | nil => simp
  | cons n rest ih =>
      intro uts s
      rw [List.foldl_cons, ih, mem_dedupPush]
      simp [or_assoc]

theorem nodup_dedupPush (uts : List String) (n : String) (h : uts.Nodup) :
    (dedupPush uts n).Nodup := by
  unfold dedupPush
  by_cases hm : n ∈ uts
  · simpa [hm] using h
  · simp [hm, List.nodup_append, h]

theorem nodup_foldl_dedupPush (names : List String) :
    ∀ uts : List String, uts.Nodup → (names.foldl dedupPush uts).Nodup := by
  induction names with
  | nil => intro uts h; simpa using h
  | cons n rest ih =>
      intro uts h
      rw [List.foldl_cons]
      exact ih _ (nodup_dedupPush uts n h)

theorem othersFindings_block_types (raw : Json) (mi : Nat) (role : AnthropicRole)
    (bs : List AnthropicContentBlock) :
    ∀ bi, (othersFindings raw mi role bs bi).map (·.block_type) =
      (othersNames raw mi bs bi).map some := by
  induction bs with
  | nil => intro bi; rfl
  | cons b rest ih =>
      intro bi
      cases b <;> simp [othersFindings, othersNames, ih, mkUnknownFinding]

theorem allFindings_block_types (raw : Json) (msgs : List AnthropicMessage) :
    ∀ mi, (allFindings raw msgs mi).map (·.block_type) =
      (allNames raw msgs mi).map some := by
  induction msgs with
  | nil => intro mi; rfl
  | cons m rest ih =>
      intro mi
      rcases m with ⟨role, content⟩
      cases content with
      | Text s => simp [allFindings, allNames, ih]
      | Blocks bs => simp [allFindings, allNames, ih, othersFindings_block_types]

theorem othersFindings_length (raw : Json) (mi : Nat) (role : AnthropicRole)
    (bs : List AnthropicContentBlock) :
    ∀ bi, (othersFindings raw mi role bs bi).length = countOtherBlocks bs := by
  induction bs with
  | nil => intro bi; rfl
  | cons b rest ih =>
      intro bi
      cases b <;> simp [othersFindings, countOtherBlocks, ih] <;> omega

theorem allFindings_length (raw : Json) (msgs : List AnthropicMessage) :
    ∀ mi, (allFindings raw msgs mi).length = countOther msgs := by
  induction msgs with
  | nil => intro mi; rfl
  | cons m rest ih =>
      intro mi
      rcases m with ⟨role, content⟩
      cases content with
      | Text s => simp [allFindings, countOther, ih]
      | Blocks bs => simp [allFindings, countOther, ih, othersFindings_length]

theorem mem_othersFindings (raw : Json) (mi : Nat) (role : AnthropicRole)
    (bs : List AnthropicContentBlock) :
    ∀ bi f, f ∈ othersFindings raw mi role bs bi →
      f.severity = .Medium ∧ f.category = "unknown_content_block" := by
  induction bs with
  | nil => intro bi f h; simp [othersFindings] at h
  | cons b rest ih =>
      intro bi f h
      cases b with
      | Other =>
          simp only [othersFindings, List.mem_cons] at h
          rcases h with h | h
          · subst h; exact ⟨rfl, rfl⟩
          · exact ih _ f h
      | Text t => exact ih _ f (by simpa [othersFindings] using h)
      | Image a b c => exact ih _ f (by simpa [othersFindings] using h)
      | ToolUse i n inp => exact ih _ f (by simpa [othersFindings] using h)
      | ToolResult tid c ie => exact ih _ f (by simpa [othersFindings] using h)

theorem mem_allFindings (raw : Json) (msgs : List AnthropicMessage) :
    ∀ mi f, f ∈ allFindings raw msgs mi →
      f.severity = .Medium ∧ f.category = "unknown_content_block" := by
  induction msgs with
  | nil => intro mi f h; simp [allFindings] at h
  | cons m rest ih =>
      intro mi f h
      rcases m with ⟨role, content⟩
      cases content with
      | Text s => exact ih _ f (by simpa [allFindings] using h)
      | Blocks bs =>
          simp only [allFindings, List.mem_append] at h
          rcases h with h | h
          · exact mem_othersFindings raw mi role bs 0 f h
          · exact ih _ f h

/-- C5 counterexample: `reqMissingMaxTokens` has only recognised content
(its single message carries a plain string), yet `validate_request`
returns one finding — a high-severity `typed_parse_failure`, because
`max_tokens` is missing — refuting "zero findings whenever all blocks
have a recognised type". -/
theorem validate_request_counterexample :
    (validate_request reqMissingMaxTokens).typed_parse_succeeded = false ∧
    (validate_request reqMissingMaxTokens).findings.map
      (fun f => (f.severity, f.category)) = [(.High, "typed_parse_failure")] ∧
    (validate_request reqMissingMaxTokens).findings ≠ [] :=
  ⟨by decide, by decide, by decide⟩

/-- C5 (amended): when the typed parse succeeds, `validate_request`
emits exactly one medium-severity `unknown_content_block` finding per
`Other` (unknown-type) top-level block — in particular zero findings
when every block is recognised — and `unknown_block_types` lists each
distinct recovered type name exactly once (no duplicates, and a name
appears iff some finding carries it).  When the typed parse fails (for
example `max_tokens` missing), the report instead holds the single
high-severity `typed_parse_failure` finding of the counterexample. -/
theorem validate_request_amended (raw : Json)
    (typed : AnthropicCreateMessageRequest) (hp : parseTyped raw = some typed) :
    (validate_request raw).typed_parse_succeeded = true ∧
    (validate_request raw).findings.length = countOther typed.messages ∧
    (countOther typed.messages = 0 → (validate_request raw).findings = []) ∧
    (∀ f ∈ (validate_request raw).findings,
        f.severity = .Medium ∧ f.category = "unknown_content_block") ∧
    (validate_request raw).unknown_block_types.Nodup ∧
    (∀ s, s ∈ (validate_request raw).unknown_block_types ↔
        some s ∈ (validate_request raw).findings.map (·.block_type)) := by
  have hval : validate_request raw =
      ⟨true, allFindings raw typed.messages 0,
       (allNames raw typed.messages 0).foldl dedupPush []⟩ := by
    unfold validate_request
    rw [hp]
    simp [scanMessages_eq]
  rw [hval]
  refine ⟨rfl, allFindings_length raw typed.messages 0, ?_, ?_, ?_, ?_⟩
  · intro h0
    have := allFindings_length raw typed.messages 0
    rw [h0] at this
    exact List.length_eq_zero.mp this
  · exact fun f hf => mem_allFindings raw typed.messages 0 f hf
  · exact nodup_foldl_dedupPush _ [] List.nodup_nil
  · intro s
    rw [mem_foldl_dedupPush, allFindings_block_types]
    simp

theorem validate_request_amended_witness :
    parseTyped reqDupUnknown = some reqDupUnknownTyped ∧
    (validate_request reqDupUnknown).findings.length =
      countOther reqDupUnknownTyped.messages ∧
    (validate_request reqDupUnknown).unknown_block_types.Nodup :=
  ⟨rfl,
   (validate_request_amended reqDupUnknown reqDupUnknownTyped rfl).2.1,
   (validate_request_amended reqDupUnknown reqDupUnknownTyped rfl).2.2.2.2.1⟩

end CCProxy


